import Mathlib

/-!
# Verification of the schema-driven record engine of `protist-traits`

Shallow embedding of the curation tool in `app8.py` (the behaviour of
`app7.py` is identical on every construct treated here; both files are
cited where definitions name source lines).

The Streamlit host re-runs the whole script on each interaction; the only
state surviving between runs is the session key-value store and the files
on disk.  We model that external state as an explicit `Env` and each
source function as a pure function of it:

* YAML values (`yaml.safe_load` results / `yaml.dump` inputs) are the
  inductive `Yaml`.  Python `None` is `Yaml.ynull`; mappings keep their
  insertion order as association lists, matching `yaml.dump(...,
  sort_keys=False)`.
* `st.text_input(...)` reads the stored string for its key, `""` when the
  user has typed nothing (the widget's initial value).
* `st.number_input(...)` reads the stored number for its key; when the
  user has entered nothing it yields the widget's initial value, which is
  zero (`value` defaults to `min_value` or `0.0`, and the source never
  passes `value`).  Integer inputs are modelled by `Int`, float inputs by
  `Rat` (the claims depend only on which number is produced, never on
  binary floating-point rounding).
* `st.selectbox(...)` yields the stored choice when it is one of the
  options, otherwise the first option, and Python `None` when there are
  no options.
* the `st.session_state` list backing a `list_of_objects` field only ever
  receives `{}` appends, so only its length matters: `Env.counts`.
-/

set_option autoImplicit false

namespace ProtistTraits

/-- A parsed YAML value (`yaml.safe_load` output / `yaml.dump` input).
`ynull` is Python `None`; `ymap` keeps insertion order. -/
inductive Yaml where
  | ynull
  | ystr (s : String)
  | yint (n : Int)
  | yfloat (q : Rat)
  | ybool (b : Bool)
  | ylist (items : List Yaml)
  | ymap (entries : List (String × Yaml))

/-- Python truthiness of a YAML value (`if not file_id`, `x or y`). -/
def truthy : Yaml → Bool
  | .ynull => false
  | .ystr s => s != ""
  | .yint n => n != 0
  | .yfloat q => q != 0
  | .ybool b => b
  | .ylist l => !l.isEmpty
  | .ymap m => !m.isEmpty

/-- Truthiness of a possibly-absent value (`spec.get(...)` results). -/
def truthyOpt : Option Yaml → Bool
  | none => false
  | some y => truthy y

/-- The external state one script run sees: the session key-value store
(text, number, selectbox and list-entry state per widget key) together
with the files on disk.  `fs p = some y` means the path `p` exists and
parses to `y`; `ids t` is `list_yaml_ids(DIRS[t])`, the sorted identifier
list of collection `t`. -/
structure Env where
  texts : String → Option String
  ints : String → Option Int
  floats : String → Option Rat
  selects : String → Option Nat
  counts : String → Nat
  fs : String → Option Yaml
  ids : String → List String

/-- `st.text_input` at key `key`: the stored value, `""` if untouched. -/
def textInput (env : Env) (key : String) : String :=
  (env.texts key).getD ""

/-- `st.number_input(step=1)` at key `key`: the stored value, `0` if the
user entered nothing (the widget initializes to zero). -/
def intInput (env : Env) (key : String) : Int :=
  (env.ints key).getD 0

/-- `st.number_input` (float) at key `key`: the stored value, `0` if the
user entered nothing (the widget initializes to zero). -/
def floatInput (env : Env) (key : String) : Rat :=
  (env.floats key).getD 0

/-- `st.selectbox(label, opts)`: the stored choice (modelled by its
position among the offered options) when it is still a valid option, else
the first option; Python `None` when there are no options. -/
def selectbox (opts : List Yaml) (stored : Option Nat) : Yaml :=
  match opts with
  | [] => .ynull
  | o :: _ =>
    match stored with
    | some i => (opts.getD i o)
    | none => o

/-- `load_vocab` (app8.py lines 41-48, app7.py lines 42-49): an inline
list is returned as is; a string is treated as a path and its parsed
content returned when the path exists; everything else (absent value,
missing path, any other type) yields `[]`. -/
def load_vocab (fs : String → Option Yaml) : Option Yaml → Yaml
  | some (.ylist l) => .ylist l
  | some (.ystr s) =>
    match fs s with
    | some y => y
    | none => .ylist []
  | _ => .ylist []

/-- The options `st.selectbox` offers for a resolved vocabulary value: a
YAML sequence yields its items.  A non-sequence vocabulary is outside the
data model (a vocabulary is a sequence of allowed values) and is modelled
as offering no options. -/
def vocabOptions : Yaml → List Yaml
  | .ylist l => l
  | _ => []

/-- The keys of the `DIRS` dictionary: the known entity collections. -/
def DIRS : List String := ["Taxon", "Source", "Material", "Assertions"]

/-- The `"— none —"` sentinel placed before every reference choice list. -/
def noneSentinel : String := "— none —"

mutual
/-- A field spec as read from a schema file: either the shorthand form (a
bare type-name string) or a canonical mapping.  The canonical form
records the accesses the source makes: `value_type`, truthiness of
`required`, `vocabulary_source`, `vocabulary`, `target`, `fields`. -/
inductive FieldSpec where
  | shorthand (vtype : String)
  | canonical (value_type : Option String) (required : Bool)
      (vocabulary_source : Option Yaml) (vocabulary : Option Yaml)
      (target : Option String) (fields : FieldList)

/-- An ordered mapping of field names to field specs (`spec["fields"]`,
`schema["fields"]`). -/
inductive FieldList where
  | nil
  | cons (name : String) (spec : FieldSpec) (rest : FieldList)
end

/-- `normalize_spec` (app8.py lines 75-78, app7.py lines 80-90): the
shorthand string `s` becomes the mapping `{"value_type": s}` — on which
every other accessor the source uses (`required`, `vocabulary_source`,
`vocabulary`, `target`, `fields`) reads its default; a canonical spec is
returned unchanged. -/
def normalize_spec : FieldSpec → FieldSpec
  | .shorthand s => .canonical (some s) false none none none .nil
  | spec => spec

/-- The filter `val not in ("", None)` applied before a value is added to
a payload, object or list entry: in Python only the string `""` equals
`""` and only `None` equals `None`, every other value passes. -/
def keepVal : Yaml → Bool
  | .ystr s => s != ""
  | .ynull => false
  | _ => true

mutual
/-- The dispatch body of `render_field` (app8.py lines 91-157, app7.py
lines 92-172) on an already-normalized spec: `key = key_pref + "_" +
name`, then dispatch on `spec.get("value_type", "string")`.  The
`shorthand` case inlines the behaviour of its normalized form
`{"value_type": s}` — no vocabulary, no target, no child fields — so that
the recursion stays structural; `render_canon_normalize_spec` below
proves it equal to rendering the normalized form, hence `render_field`
(normalize, then dispatch) matches the source exactly. -/
def render_canon (env : Env) (name : String) (spec : FieldSpec)
    (key_pref : String) : Yaml :=
  let key := key_pref ++ "_" ++ name
  match spec with
  | .shorthand s =>
    if s = "string" then .ystr (textInput env key)
    else if s = "integer" then .yint (intInput env key)
    else if s = "float" then .yfloat (floatInput env key)
    else if s = "controlled_vocab" then
      selectbox (vocabOptions (load_vocab env.fs none)) (env.selects key)
    else if s = "reference" then .ystr (textInput env key)
    else .ynull
  | .canonical vt _req vsrc voc tgt flds =>
    let vtype := vt.getD "string"
    if vtype = "string" then .ystr (textInput env key)
    else if vtype = "integer" then .yint (intInput env key)
    else if vtype = "float" then .yfloat (floatInput env key)
    else if vtype = "controlled_vocab" then
      selectbox (vocabOptions (load_vocab env.fs (if truthyOpt vsrc then vsrc else voc)))
        (env.selects key)
    else if vtype = "reference" then
      match tgt with
      | some t =>
        if t ∈ DIRS then
          selectbox ((noneSentinel :: env.ids t).map .ystr) (env.selects key)
        else .ystr (textInput env key)
      | none => .ystr (textInput env key)
    else if vtype = "object" then
      let obj := render_children env flds key
      if obj.isEmpty then .ynull else .ymap obj
    else if vtype = "list_of_objects" then
      let n := env.counts key
      let entries := (List.range n).map
        (fun i => render_children env flds (key ++ "_" ++ toString i))
      let results := entries.filter (fun e => !e.isEmpty)
      if results.isEmpty then .ynull else .ylist (results.map .ymap)
    else .ynull

/-- The child loop shared by the `object` branch, the `list_of_objects`
entry loop and `entity_tab`'s payload loop: render each field in declared
order and keep `(fname, val)` when `val not in ("", None)`. -/
def render_children (env : Env) (fl : FieldList) (key_pref : String) :
    List (String × Yaml) :=
  match fl with
  | .nil => []
  | .cons fname fspec rest =>
    let val := render_canon env fname fspec key_pref
    (if keepVal val then [(fname, val)] else [])
      ++ render_children env rest key_pref
end

/-- `render_field` (app8.py line 91-92): normalize the spec, then
dispatch. -/
def render_field (env : Env) (name : String) (spec : FieldSpec)
    (key_pref : String) : Yaml :=
  render_canon env name (normalize_spec spec) key_pref

/-- The result of the required-field comprehension in `entity_tab`
(app8.py lines 192-195): the list of missing required field names, unless
Python raises — `s.get("required")` on a shorthand (string) spec raises
`AttributeError`, because the comprehension reads the raw spec without
`normalize_spec`. -/
inductive ReqResult where
  | attrError
  | ok (missing : List String)

/-- `[f for f, s in schema["fields"].items() if s.get("required") and f
not in payload]` (app8.py lines 192-195): raises on any shorthand spec,
otherwise collects, in declared order, every required field name absent
from the payload. -/
def required_missing (fl : FieldList) (payload : List (String × Yaml)) :
    ReqResult :=
  match fl with
  | .nil => .ok []
  | .cons _f (.shorthand _) _rest => .attrError
  | .cons f (.canonical _ req _ _ _ _) rest =>
    match required_missing rest payload with
    | .attrError => .attrError
    | .ok ms =>
      .ok (if req ∧ (payload.lookup f).isNone then f :: ms else ms)

/-- Python `str.lower()` as the source applies it to entity type names
(`"Taxon"`, `"Source"`, `"Material"` — plain ASCII): lower-case every
character. -/
def pyLower (s : String) : String :=
  String.mk (s.toList.map Char.toLower)

/-- Outcome of clicking `Save <entity>` in `entity_tab` (app8.py lines
191-206): a validation error (each `st.error` + `return` path, no file
written), a Python `AttributeError` escaping the script (no file
written), or a write of `payload` to `<collection>/<file_id>.yaml`. -/
inductive SaveOutcome where
  | attrError
  | missingRequired (fields : List String)
  | missingIdentifier
  | saved (file_id : Yaml) (payload : List (String × Yaml))

/-- The save path of `entity_tab` (app8.py lines 184-206): build the
payload by rendering every top-level field with key prefix
`entity_name`, keeping values not in `("", None)`; report missing
required fields; look up the identifier `<entity_name.lower()>_id` and
reject a missing or falsy one (`if not file_id`); otherwise write the
payload. -/
def entity_save (env : Env) (entity_name : String) (fl : FieldList) :
    SaveOutcome :=
  let payload := render_children env fl entity_name
  match required_missing fl payload with
  | .attrError => .attrError
  | .ok missing =>
    if !missing.isEmpty then .missingRequired missing
    else
      match payload.lookup (pyLower entity_name ++ "_id") with
      | none => .missingIdentifier
      | some v => if truthy v then .saved v payload else .missingIdentifier

/-- The qualifier loop of `assertions_tab` (app8.py lines 244-249): for
each qualifier name in the cached qualifier mapping, read the multiselect
selection; `if sel:` keeps only qualifiers with a non-empty selection, in
order. -/
def collect_qualifiers (qnames : List String)
    (qsel : String → List String) : List (String × List String) :=
  match qnames with
  | [] => []
  | q :: rest =>
    (if (qsel q).isEmpty then [] else [(q, qsel q)])
      ++ collect_qualifiers rest qsel

/-- Outcome of clicking `Save assertion file` (app8.py lines 251-271):
either the `st.error` path (no file written) or a write of `payload` to
`data/assertions/<domain>/<fileStem>.yaml`. -/
inductive AssertOutcome where
  | missingCrossRef
  | write (domain : String) (fileStem : String) (payload : Yaml)

/-- The single `{feature, trait, value, qualifiers}` mapping of the
`assertions` list (app8.py lines 258-263): `qualifiers` carries the
collected mapping `or None` — the key is always present, with `None` when
no qualifier was selected. -/
def assertion_entry (feature trait_id : String) (value : Yaml)
    (qualifiers : List (String × List String)) : List (String × Yaml) :=
  [("feature", .ystr feature),
   ("trait", .ystr trait_id),
   ("value", value),
   ("qualifiers",
     if qualifiers.isEmpty then .ynull
     else .ymap (qualifiers.map
       (fun p => (p.1, .ylist (p.2.map .ystr)))))]

/-- The save path of `assertions_tab` (app8.py lines 251-271): reject the
`"— none —"` sentinel for `taxon_id` or `source_id`; otherwise build the
single assertion set — `source_id`, an `assertions` list holding exactly
one `assertion_entry`, plus `material_id` when not the sentinel — and
write `{"taxon_id": ..., "assertion_sets": [aset]}` to the file named by
`taxon_id` inside the chosen domain. -/
def assertions_save (domain taxon_id source_id material_id feature
    trait_id : String) (value : Yaml) (qnames : List String)
    (qsel : String → List String) : AssertOutcome :=
  let qualifiers := collect_qualifiers qnames qsel
  if taxon_id = noneSentinel ∨ source_id = noneSentinel then
    .missingCrossRef
  else
    let aset : List (String × Yaml) :=
      [("source_id", .ystr source_id),
       ("assertions", .ylist [.ymap (assertion_entry feature trait_id value qualifiers)])]
      ++ (if material_id ≠ noneSentinel
          then [("material_id", .ystr material_id)] else [])
    .write domain taxon_id
      (.ymap [("taxon_id", .ystr taxon_id),
              ("assertion_sets", .ylist [.ymap aset])])

/-- An external state in which the user has entered nothing, no files
exist and every collection is empty. -/
def emptyEnv : Env :=
  { texts := fun _ => none, ints := fun _ => none, floats := fun _ => none,
    selects := fun _ => none, counts := fun _ => 0, fs := fun _ => none,
    ids := fun _ => [] }

/-- View of a `FieldList` as an ordered association list. -/
def toList : FieldList → List (String × FieldSpec)
  | .nil => []
  | .cons n s r => (n, s) :: toList r

/-- The number of entries a rendered `list_of_objects` value carries:
the length of its sequence, `0` when the field is omitted. -/
def emittedCount : Yaml → Nat
  | .ylist l => l.length
  | _ => 0

/-- Whether a YAML value is a string. -/
def isYstr : Yaml → Bool
  | .ystr _ => true
  | _ => false

/-- Whether a YAML value is a sequence of strings. -/
def isStringList : Yaml → Bool
  | .ylist l => l.all isYstr
  | _ => false

mutual
/-- The record invariant of claim C10, read off a stored value: no empty
string and no `None` at any depth, every mapping non-empty, every
sequence non-empty with every element itself satisfying the invariant
(so each entry of a `list_of_objects` value is a non-empty mapping). -/
def clean : Yaml → Bool
  | .ynull => false
  | .ystr s => s != ""
  | .yint _ => true
  | .yfloat _ => true
  | .ybool _ => true
  | .ylist l => !l.isEmpty && cleanList l
  | .ymap m => !m.isEmpty && cleanEntries m

/-- `clean` on every element of a sequence. -/
def cleanList : List Yaml → Bool
  | [] => true
  | y :: r => clean y && cleanList r

/-- `clean` on every value of a mapping. -/
def cleanEntries : List (String × Yaml) → Bool
  | [] => true
  | p :: r => clean p.2 && cleanEntries r
end

mutual
/-- Well-formedness hypothesis for claim C10, matching the data model's
definition of a vocabulary as a sequence of allowed string values: every
vocabulary reachable in the spec tree resolves, under the given file
system, to options that are all strings. -/
def vocabWFs (env : Env) : FieldSpec → Bool
  | .shorthand _ => true
  | .canonical _ _ vsrc voc _ flds =>
    (vocabOptions (load_vocab env.fs
        (if truthyOpt vsrc then vsrc else voc))).all isYstr
    && vocabWFl env flds

/-- `vocabWFs` on every spec of a field list. -/
def vocabWFl (env : Env) : FieldList → Bool
  | .nil => true
  | .cons _ s r => vocabWFs env s && vocabWFl env r
end

/-! ## Basic lemmas -/

theorem filter_nonempty_map_const_nil (l : List Nat) :
    ((l.map (fun _ => ([] : List (String × Yaml)))).filter
      (fun e => !e.isEmpty)) = [] := by
  induction l with
  | nil => rfl
  | cons a t ih => simp [ih]

theorem length_filter_add_length_filter_not {α : Type} (l : List α)
    (p : α → Bool) :
    (l.filter p).length + (l.filter (fun a => !p a)).length = l.length := by
  induction l with
  | nil => rfl
  | cons a t ih =>
    by_cases h : p a <;> simp [List.filter_cons, h, ← ih] <;> omega

theorem filter_of_map {α β : Type} (l : List α) (f : α → β) (p : β → Bool) :
    (l.map f).filter p = (l.filter (fun a => p (f a))).map f := by
  induction l with
  | nil => rfl
  | cons a t ih =>
    by_cases h : p (f a) <;> simp [List.filter_cons, h, ih]

/-- Rendering a normalized spec and rendering the spec itself agree: the
`shorthand` branch of `render_canon` is exactly the canonical dispatch of
`{"value_type": s}`.  The source's child calls go through `render_field`
(normalize, then dispatch); this lemma lets `render_children` call
`render_canon` directly. -/
theorem render_canon_normalize_spec (env : Env) (name : String)
    (spec : FieldSpec) (kp : String) :
    render_canon env name (normalize_spec spec) kp
      = render_canon env name spec kp := by
  cases spec with
  | canonical vt req vs vc tg fl => rfl
  | shorthand s =>
    simp only [normalize_spec, render_canon, Option.getD_some]
    split_ifs <;> simp_all [render_children, filter_nonempty_map_const_nil]

/-- Each child of an `object`, `list_of_objects` or top-level field set is
rendered by `render_field` with the shared key prefix; the kept children,
in declared order, are exactly those whose value passes the
`val not in ("", None)` filter. -/
theorem render_children_eq (env : Env) (fl : FieldList) (kp : String) :
    render_children env fl kp
      = (toList fl).filterMap (fun p =>
          let v := render_field env p.1 p.2 kp
          if keepVal v then some (p.1, v) else none) := by
  cases fl with
  | nil => rfl
  | cons n s r =>
    have ih := render_children_eq env r kp
    simp only [render_children, toList, List.filterMap_cons, render_field,
      render_canon_normalize_spec, ih]
    by_cases h : keepVal (render_canon env n s kp) <;> simp [h]

/-- The emptiness of a rendered child list, as the source observes it
(`obj or None`, `if entry`): empty iff every child field is omitted. -/
theorem render_children_isEmpty (env : Env) (fl : FieldList) (kp : String) :
    (render_children env fl kp).isEmpty
      = (toList fl).all (fun p => !keepVal (render_field env p.1 p.2 kp)) := by
  cases fl with
  | nil => rfl
  | cons n s r =>
    have ih := render_children_isEmpty env r kp
    simp only [render_field, render_canon_normalize_spec] at ih
    simp only [render_children, toList, List.all_cons, render_field,
      render_canon_normalize_spec]
    by_cases h : keepVal (render_canon env n s kp) <;> simp [h, ih]

/-- Reduction of `render_field` on a `list_of_objects` spec to the entry
loop of app8.py lines 138-155. -/
theorem render_field_list_eq (env : Env) (name : String) (req : Bool)
    (vs vc : Option Yaml) (tg : Option String) (flds : FieldList)
    (kp : String) :
    render_field env name
        (.canonical (some "list_of_objects") req vs vc tg flds) kp
      = (if (((List.range (env.counts (kp ++ "_" ++ name))).map (fun i =>
              render_children env flds (kp ++ "_" ++ name ++ "_" ++ toString i))).filter
                (fun e => !e.isEmpty)).isEmpty
         then .ynull
         else .ylist ((((List.range (env.counts (kp ++ "_" ++ name))).map (fun i =>
              render_children env flds (kp ++ "_" ++ name ++ "_" ++ toString i))).filter
                (fun e => !e.isEmpty)).map .ymap)) := by
  simp [render_field, normalize_spec, render_canon]

/-- Reduction of `render_field` on an `object` spec to the child loop of
app8.py lines 122-135. -/
theorem render_field_object_eq (env : Env) (name : String) (req : Bool)
    (vs vc : Option Yaml) (tg : Option String) (flds : FieldList)
    (kp : String) :
    render_field env name (.canonical (some "object") req vs vc tg flds) kp
      = (if (render_children env flds (kp ++ "_" ++ name)).isEmpty
         then .ynull
         else .ymap (render_children env flds (kp ++ "_" ++ name))) := by
  simp [render_field, normalize_spec, render_canon]

/-! ## Claim theorems -/

/-- C1: the claim says an integer or float field the user never touched
yields omitted.  The code stores the number zero instead:
`st.number_input` initializes to zero, zero passes the
`val not in ("", None)` filter, and the assembled record therefore
contains the field with value `0`.  This theorem evaluates the code at
the failing input (an untouched integer field `count` and float field
`size` of entity `Taxon`). -/
theorem C1_untouched_numeric_field_stored_as_zero :
    render_field emptyEnv "count"
        (.canonical (some "integer") false none none none .nil) "Taxon"
      = .yint 0
    ∧ render_field emptyEnv "size"
        (.canonical (some "float") false none none none .nil) "Taxon"
      = .yfloat 0
    ∧ render_children emptyEnv
        (.cons "count" (.canonical (some "integer") false none none none .nil)
          .nil) "Taxon"
      = [("count", .yint 0)]
    ∧ keepVal (.yint 0) = true ∧ keepVal (.yfloat 0) = true :=
  ⟨rfl, rfl, rfl, rfl, rfl⟩

/-- C2: for every `list_of_objects` spec and every external state, the
number of emitted entries is at most the externally tracked entry count
`env.counts key`, and equals that count minus the number of entry indices
all of whose child fields are omitted; if the resulting sequence is empty
the whole field renders as omitted (`None`). -/
theorem C2_list_entry_count (env : Env) (name : String) (req : Bool)
    (vs vc : Option Yaml) (tg : Option String) (flds : FieldList)
    (kp : String) :
    emittedCount (render_field env name
        (.canonical (some "list_of_objects") req vs vc tg flds) kp)
      ≤ env.counts (kp ++ "_" ++ name)
    ∧ emittedCount (render_field env name
        (.canonical (some "list_of_objects") req vs vc tg flds) kp)
      = env.counts (kp ++ "_" ++ name)
        - ((List.range (env.counts (kp ++ "_" ++ name))).filter (fun i =>
            (toList flds).all (fun p => !keepVal (render_field env p.1 p.2
              (kp ++ "_" ++ name ++ "_" ++ toString i))))).length
    ∧ (emittedCount (render_field env name
        (.canonical (some "list_of_objects") req vs vc tg flds) kp) = 0 →
        render_field env name
          (.canonical (some "list_of_objects") req vs vc tg flds) kp
          = .ynull) := by
  have hred := render_field_list_eq env name req vs vc tg flds kp
  set key := kp ++ "_" ++ name with hkey
  set n := env.counts key with hn
  set f : Nat → List (String × Yaml) :=
    fun i => render_children env flds (key ++ "_" ++ toString i) with hf
  set results := ((List.range n).map f).filter (fun e => !e.isEmpty)
    with hresults
  have hemit : emittedCount (render_field env name
      (.canonical (some "list_of_objects") req vs vc tg flds) kp)
      = results.length := by
    rw [hred]
    by_cases h : results.isEmpty
    · have h' : results = [] := List.isEmpty_iff.mp h
      simp [h, h', emittedCount]
    · simp [h, emittedCount]
  have hdrop : ((List.range n).filter (fun i =>
      (toList flds).all (fun p => !keepVal (render_field env p.1 p.2
        (key ++ "_" ++ toString i))))).length
      = ((List.range n).filter (fun i => (f i).isEmpty)).length := by
    congr 1
    exact List.filter_congr (fun i _ => (render_children_isEmpty env flds
      (key ++ "_" ++ toString i)).symm)
  have hlen : results.length
      = ((List.range n).filter (fun i => !(f i).isEmpty)).length := by
    rw [hresults, filter_of_map]
    exact List.length_map _ _
  have hsum : ((List.range n).filter (fun i => !(f i).isEmpty)).length
      + ((List.range n).filter (fun i => (f i).isEmpty)).length = n := by
    have h := length_filter_add_length_filter_not (List.range n)
      (fun i => !(f i).isEmpty)
    simpa using h
  refine ⟨?_, ?_, ?_⟩
  · rw [hemit, hlen]
    omega
  · rw [hemit, hlen, hdrop]
    omega
  · intro h0
    rw [hemit] at h0
    have h' : results = [] := List.eq_nil_of_length_eq_zero h0
    rw [hred, h']
    simp
/-- Witness for C2 at a concrete input: with no tracked entries the
`synonyms` list field is omitted. -/
theorem C2_list_entry_count_witness :
    render_field emptyEnv "synonyms"
      (.canonical (some "list_of_objects") false none none none
        (.cons "name" (.shorthand "string") .nil)) "Taxon" = .ynull :=
  (C2_list_entry_count emptyEnv "synonyms" false none none none
    (.cons "name" (.shorthand "string") .nil) "Taxon").2.2 rfl

/-- C3: an `object` field renders as omitted (`None`) exactly when every
child field is omitted; otherwise it renders as the nested mapping of
exactly the non-omitted children, and it never renders as an empty
mapping. -/
theorem C3_object_empty_omitted (env : Env) (name : String) (req : Bool)
    (vs vc : Option Yaml) (tg : Option String) (flds : FieldList)
    (kp : String) :
    (render_field env name (.canonical (some "object") req vs vc tg flds) kp
        = .ynull
      ↔ ∀ p ∈ toList flds,
          keepVal (render_field env p.1 p.2 (kp ++ "_" ++ name)) = false)
    ∧ (¬(∀ p ∈ toList flds,
          keepVal (render_field env p.1 p.2 (kp ++ "_" ++ name)) = false) →
        render_field env name (.canonical (some "object") req vs vc tg flds) kp
          = .ymap ((toList flds).filterMap (fun p =>
              let v := render_field env p.1 p.2 (kp ++ "_" ++ name)
              if keepVal v then some (p.1, v) else none)))
    ∧ (∀ m, render_field env name
          (.canonical (some "object") req vs vc tg flds) kp = .ymap m →
        m ≠ []) := by
  have hred := render_field_object_eq env name req vs vc tg flds kp
  set key := kp ++ "_" ++ name with hkey
  have hiff : (render_children env flds key).isEmpty = true
      ↔ ∀ p ∈ toList flds,
          keepVal (render_field env p.1 p.2 key) = false := by
    rw [render_children_isEmpty]
    simp
  refine ⟨?_, ?_, ?_⟩
  · rw [hred]
    constructor
    · intro h0
      by_cases h : (render_children env flds key).isEmpty
      · exact hiff.mp h
      · rw [if_neg h] at h0
        exact absurd h0 (by simp)
    · intro hall
      rw [if_pos (hiff.mpr hall)]
  · intro hnot
    have h : (render_children env flds key).isEmpty = false := by
      cases h' : (render_children env flds key).isEmpty
      · rfl
      · exact absurd (hiff.mp h') hnot
    rw [hred, h]
    simp [render_children_eq]
  · intro m hm
    rw [hred] at hm
    by_cases h : (render_children env flds key).isEmpty
    · rw [if_pos h] at hm
      exact absurd hm (by simp)
    · rw [if_neg h] at hm
      have hm' : render_children env flds key = m := by
        injection hm
      intro hnil
      rw [hm', hnil] at h
      exact h rfl
/-- Witness for C3 at concrete inputs: with nothing entered the `address`
object is omitted; with child `name` entered it is the singleton mapping. -/
theorem C3_object_empty_omitted_witness :
    render_field emptyEnv "address"
        (.canonical (some "object") false none none none
          (.cons "name" (.shorthand "string") .nil)) "Taxon" = .ynull
    ∧ render_field
        { texts := fun k => if k = "Taxon_address_name" then some "A" else none,
          ints := fun _ => none, floats := fun _ => none,
          selects := fun _ => none, counts := fun _ => 0,
          fs := fun _ => none, ids := fun _ => [] } "address"
        (.canonical (some "object") false none none none
          (.cons "name" (.shorthand "string") .nil)) "Taxon"
      = .ymap [("name", .ystr "A")] :=
  ⟨(C3_object_empty_omitted emptyEnv "address" false none none none
      (.cons "name" (.shorthand "string") .nil) "Taxon").1.mpr (by decide),
   (C3_object_empty_omitted
      { texts := fun k => if k = "Taxon_address_name" then some "A" else none,
        ints := fun _ => none, floats := fun _ => none,
        selects := fun _ => none, counts := fun _ => 0,
        fs := fun _ => none, ids := fun _ => [] } "address" false none none
      none (.cons "name" (.shorthand "string") .nil) "Taxon").2.1 (by decide)⟩

/-- C7: `normalize_spec` is idempotent, and normalizing a shorthand
string `s` yields the canonical mapping `{"value_type": s}` with every
other attribute defaulted. -/
theorem C7_normalize_idempotent :
    (∀ spec : FieldSpec,
      normalize_spec (normalize_spec spec) = normalize_spec spec)
    ∧ ∀ s : String,
        normalize_spec (.shorthand s)
          = .canonical (some s) false none none none .nil :=
  ⟨fun spec => by cases spec <;> rfl, fun _ => rfl⟩

/-! ## Helper lemmas for references, qualifiers and vocabularies -/

theorem isEmpty_map_eq {α β : Type} (l : List α) (f : α → β) :
    (l.map f).isEmpty = l.isEmpty := by
  cases l <;> rfl

theorem getD_mem_or {α : Type} (l : List α) (i : Nat) (d : α) :
    l.getD i d ∈ l ∨ l.getD i d = d := by
  induction l generalizing i with
  | nil => right; cases i <;> rfl
  | cons a t ih =>
    cases i with
    | zero => left; exact List.mem_cons_self _ _
    | succ j =>
      rcases ih j with h | h
      · left; exact List.mem_cons_of_mem _ h
      · right; exact h

/-- A selectbox over a non-empty option list always yields one of its
options. -/
theorem selectbox_mem (o : Yaml) (opts : List Yaml) (stored : Option Nat) :
    selectbox (o :: opts) stored ∈ o :: opts := by
  cases stored with
  | none => exact List.mem_cons_self _ _
  | some i =>
    have hs : selectbox (o :: opts) (some i) = (o :: opts).getD i o := rfl
    rw [hs]
    rcases getD_mem_or (o :: opts) i o with h | h
    · exact h
    · rw [h]
      exact List.mem_cons_self _ _

/-- A qualifier whose multiselect selection is empty never appears in the
collected qualifiers mapping. -/
theorem collect_qualifiers_lookup_none (qnames : List String)
    (qsel : String → List String) (q : String) (h : qsel q = []) :
    (collect_qualifiers qnames qsel).lookup q = none := by
  induction qnames with
  | nil => rfl
  | cons q' rest ih =>
    simp only [collect_qualifiers]
    by_cases h' : (qsel q').isEmpty
    · simpa [h'] using ih
    · have hne : (q == q') = false := by
        refine beq_eq_false_iff_ne.mpr ?_
        intro e
        rw [← e, h] at h'
        exact h' rfl
      simp [h', List.lookup, hne, ih]

/-- The collected qualifiers mapping is empty exactly when every
qualifier's selection is empty. -/
theorem collect_qualifiers_eq_nil_iff (qnames : List String)
    (qsel : String → List String) :
    collect_qualifiers qnames qsel = [] ↔ ∀ q ∈ qnames, qsel q = [] := by
  induction qnames with
  | nil => simp [collect_qualifiers]
  | cons q' rest ih =>
    by_cases h' : (qsel q').isEmpty
    · simp [collect_qualifiers, h', ih, List.isEmpty_iff.mp h']
    · simp only [collect_qualifiers, h']
      constructor
      · intro hcontra
        simp at hcontra
      · intro hall
        exact absurd (List.isEmpty_iff.mpr (hall q' (List.mem_cons_self _ _))) h'

/-! ## Claim theorems, continued -/

/-- C4: the claim says a save with some required field absent always
fails with `MissingRequiredFields` naming every such field.  The
required-field comprehension reads `s.get("required")` on the raw spec
(without `normalize_spec`), so any shorthand string spec in the schema —
a form the source's own `normalize_spec` docstring advertises — raises
`AttributeError` instead.  The theorem evaluates the code at the failing
input (required `taxon_id` unsupplied, shorthand `notes` present) and, by
contrast, at the same schema without the shorthand field, where the
claimed behaviour does occur. -/
theorem C4_required_check_crashes_on_shorthand :
    render_children emptyEnv
        (.cons "taxon_id" (.canonical (some "string") true none none none .nil)
          (.cons "notes" (.shorthand "string") .nil)) "Taxon" = []
    ∧ entity_save emptyEnv "Taxon"
        (.cons "taxon_id" (.canonical (some "string") true none none none .nil)
          (.cons "notes" (.shorthand "string") .nil)) = .attrError
    ∧ entity_save emptyEnv "Taxon"
        (.cons "taxon_id" (.canonical (some "string") true none none none .nil)
          .nil) = .missingRequired ["taxon_id"] :=
  ⟨rfl, rfl, rfl⟩

/-- C5: an assertion save with `taxon_id` or `source_id` equal to the
`"— none —"` sentinel fails with the missing-cross-reference error and
writes nothing; otherwise it writes exactly one single-entry
assertion-set record keyed by `taxon_id` within the chosen domain. -/
theorem C5_assertion_save (domain taxon source material feature
    trait : String) (value : Yaml) (qnames : List String)
    (qsel : String → List String) :
    (taxon = noneSentinel ∨ source = noneSentinel →
      assertions_save domain taxon source material feature trait value
        qnames qsel = .missingCrossRef)
    ∧ (taxon ≠ noneSentinel → source ≠ noneSentinel →
        ∃ aset : List (String × Yaml),
          assertions_save domain taxon source material feature trait value
            qnames qsel
            = .write domain taxon
                (.ymap [("taxon_id", .ystr taxon),
                        ("assertion_sets", .ylist [.ymap aset])])) := by
  constructor
  · intro h
    simp only [assertions_save]
    rw [if_pos h]
  · intro h1 h2
    refine ⟨[("source_id", .ystr source),
      ("assertions", .ylist [.ymap (assertion_entry feature trait value
        (collect_qualifiers qnames qsel))])]
      ++ (if material ≠ noneSentinel
          then [("material_id", .ystr material)] else []), ?_⟩
    simp only [assertions_save]
    rw [if_neg (by tauto)]
/-- Witness for C5 at concrete inputs: a sentinel `taxon_id` is rejected;
a fully selected save writes the single-entry record for `T1` in domain
`growth`. -/
theorem C5_assertion_save_witness :
    assertions_save "growth" "— none —" "S1" "M1" "f" "t" (.ystr "v") []
        (fun _ => []) = .missingCrossRef
    ∧ ∃ aset, assertions_save "growth" "T1" "S1" "— none —" "f" "t"
        (.ystr "v") [] (fun _ => [])
        = .write "growth" "T1"
            (.ymap [("taxon_id", .ystr "T1"),
                    ("assertion_sets", .ylist [.ymap aset])]) :=
  ⟨(C5_assertion_save "growth" "— none —" "S1" "M1" "f" "t" (.ystr "v") []
      (fun _ => [])).1 (Or.inl rfl),
   (C5_assertion_save "growth" "T1" "S1" "— none —" "f" "t" (.ystr "v") []
      (fun _ => [])).2 (by decide) (by decide)⟩

/-- C6: the claim says that with no qualifier selected the `qualifiers`
entry is entirely absent from the serialized assertion.  In the code
`"qualifiers": qualifiers or None` always emits the key: with no
selection the assertion mapping carries `qualifiers: null` (serialized as
`null`, a placeholder value), refuting the absence claim at this concrete
input. -/
theorem C6_counterexample_qualifiers_key_present :
    assertions_save "growth" "T1" "S1" noneSentinel "f" "t" (.ystr "v")
        ["confidence"] (fun _ => [])
      = .write "growth" "T1" (.ymap [("taxon_id", .ystr "T1"),
          ("assertion_sets", .ylist [.ymap [("source_id", .ystr "S1"),
            ("assertions", .ylist [.ymap [("feature", .ystr "f"),
              ("trait", .ystr "t"), ("value", .ystr "v"),
              ("qualifiers", .ynull)]])]])])
    ∧ ([("feature", Yaml.ystr "f"), ("trait", Yaml.ystr "t"),
        ("value", Yaml.ystr "v"), ("qualifiers", Yaml.ynull)]
          : List (String × Yaml)).lookup "qualifiers" = some .ynull :=
  ⟨rfl, rfl⟩

/-- C6 amended: each qualifier with no selected values is absent from the
qualifiers mapping, and the qualifiers mapping is empty exactly when no
qualifier has a selection; but the `qualifiers` key of the serialized
assertion is always present — with value `null` when no qualifier has a
selection (not an empty mapping), and with the mapping of exactly the
non-empty selections otherwise. -/
theorem C6_amended_qualifiers (feature trait : String) (value : Yaml)
    (qnames : List String) (qsel : String → List String) :
    (∀ q, qsel q = [] →
      (collect_qualifiers qnames qsel).lookup q = none)
    ∧ (collect_qualifiers qnames qsel = [] ↔ ∀ q ∈ qnames, qsel q = [])
    ∧ (collect_qualifiers qnames qsel = [] →
        (assertion_entry feature trait value
          (collect_qualifiers qnames qsel)).lookup "qualifiers"
          = some .ynull)
    ∧ ∀ qs, collect_qualifiers qnames qsel = qs → qs ≠ [] →
        (assertion_entry feature trait value qs).lookup "qualifiers"
          = some (.ymap (qs.map
              (fun p => (p.1, Yaml.ylist (p.2.map Yaml.ystr))))) := by
  refine ⟨fun q h => collect_qualifiers_lookup_none qnames qsel q h,
    collect_qualifiers_eq_nil_iff qnames qsel, ?_, ?_⟩
  · intro h
    simp [assertion_entry, h, List.lookup]
  · intro qs hqs hne
    have h : qs.isEmpty = false := by
      cases h' : qs.isEmpty
      · rfl
      · exact absurd (List.isEmpty_iff.mp h') hne
    simp [assertion_entry, h, List.lookup]
/-- Witness for C6 amended at a concrete input: `method` (no selection)
is absent from the collected mapping, and the `qualifiers` key holds
exactly the non-empty `confidence` selection. -/
theorem C6_amended_qualifiers_witness :
    (collect_qualifiers ["confidence", "method"]
        (fun q => if q = "confidence" then ["high"] else [])).lookup "method"
      = none
    ∧ (assertion_entry "f" "t" (.ystr "v")
        [("confidence", ["high"])]).lookup "qualifiers"
      = some (.ymap [("confidence", .ylist [.ystr "high"])]) :=
  ⟨(C6_amended_qualifiers "f" "t" (.ystr "v") ["confidence", "method"]
      (fun q => if q = "confidence" then ["high"] else [])).1 "method" rfl,
   (C6_amended_qualifiers "f" "t" (.ystr "v") ["confidence", "method"]
      (fun q => if q = "confidence" then ["high"] else [])).2.2.2
      [("confidence", ["high"])] rfl (by decide)⟩

/-- C8: the claim says vocabulary resolution always returns a sequence of
strings.  The code returns whatever the referenced file parses to: with a
file containing the mapping `{a: 1}`, `load_vocab` returns that mapping,
which is not a sequence of strings. -/
theorem C8_counterexample_not_string_list :
    load_vocab (fun p => if p = "vocab.yaml"
        then some (.ymap [("a", .yint 1)]) else none)
      (some (.ystr "vocab.yaml")) = .ymap [("a", .yint 1)]
    ∧ isStringList (load_vocab (fun p => if p = "vocab.yaml"
        then some (.ymap [("a", .yint 1)]) else none)
      (some (.ystr "vocab.yaml"))) = false :=
  ⟨rfl, rfl⟩

/-- C8 amended: an inline sequence is returned unchanged; a string naming
an existing path returns that file's parsed content as is (which need not
be a sequence of strings); a string naming a missing path, or any other
input, yields the empty sequence.  The operation is total — no error
path exists in it. -/
theorem C8_amended_load_vocab (fs : String → Option Yaml)
    (src : Option Yaml) :
    (∀ l, src = some (.ylist l) → load_vocab fs src = .ylist l)
    ∧ (∀ s y, src = some (.ystr s) → fs s = some y → load_vocab fs src = y)
    ∧ (∀ s, src = some (.ystr s) → fs s = none →
        load_vocab fs src = .ylist [])
    ∧ ((∀ l, src ≠ some (.ylist l)) → (∀ s, src ≠ some (.ystr s)) →
        load_vocab fs src = .ylist []) := by
  refine ⟨?_, ?_, ?_, ?_⟩
  · rintro l rfl
    rfl
  · rintro s y rfl h
    simp [load_vocab, h]
  · rintro s rfl h
    simp [load_vocab, h]
  · intro h1 h2
    match src with
    | none => rfl
    | some .ynull => rfl
    | some (.ystr s) => exact absurd rfl (h2 s)
    | some (.yint n) => rfl
    | some (.yfloat q) => rfl
    | some (.ybool b) => rfl
    | some (.ylist l) => exact absurd rfl (h1 l)
    | some (.ymap m) => rfl
/-- Witness for C8 amended at a concrete input: an existing path is
loaded and its parsed sequence returned. -/
theorem C8_amended_load_vocab_witness :
    load_vocab (fun p => if p = "v.yaml"
        then some (.ylist [.ystr "a"]) else none) (some (.ystr "v.yaml"))
      = .ylist [.ystr "a"] :=
  (C8_amended_load_vocab (fun p => if p = "v.yaml"
      then some (.ylist [.ystr "a"]) else none)
    (some (.ystr "v.yaml"))).2.1 "v.yaml" (.ylist [.ystr "a"]) rfl rfl

/-- C9: a reference field whose target names a known entity collection
offers a closed choice of the `"— none —"` sentinel followed by that
collection's current identifier list — whatever it yields is one of those
options; a reference to an unknown target (or with no target) degrades to
a free-text scalar input. -/
theorem C9_reference_field (env : Env) (name : String) (req : Bool)
    (vs vc : Option Yaml) (t : String) (flds : FieldList) (kp : String) :
    (t ∈ DIRS →
      render_field env name
          (.canonical (some "reference") req vs vc (some t) flds) kp
        = selectbox ((noneSentinel :: env.ids t).map .ystr)
            (env.selects (kp ++ "_" ++ name))
      ∧ render_field env name
          (.canonical (some "reference") req vs vc (some t) flds) kp
          ∈ (noneSentinel :: env.ids t).map Yaml.ystr)
    ∧ (t ∉ DIRS →
        render_field env name
            (.canonical (some "reference") req vs vc (some t) flds) kp
          = .ystr (textInput env (kp ++ "_" ++ name)))
    ∧ render_field env name
          (.canonical (some "reference") req vs vc none flds) kp
        = .ystr (textInput env (kp ++ "_" ++ name)) := by
  refine ⟨fun h => ?_, fun h => ?_, ?_⟩
  · have hr : render_field env name
        (.canonical (some "reference") req vs vc (some t) flds) kp
        = selectbox ((noneSentinel :: env.ids t).map .ystr)
            (env.selects (kp ++ "_" ++ name)) := by
      simp [render_field, normalize_spec, render_canon, h]
    refine ⟨hr, ?_⟩
    rw [hr, List.map_cons]
    exact selectbox_mem _ _ _
  · simp [render_field, normalize_spec, render_canon, h]
  · simp [render_field, normalize_spec, render_canon]
/-- Witness for C9 at concrete inputs: with collection `Taxon` holding
`T1` and the second option stored, the field yields `T1`, an element of
the offered options; an unknown target falls back to the (empty) text
input. -/
theorem C9_reference_field_witness :
    render_field
        { texts := fun _ => none, ints := fun _ => none,
          floats := fun _ => none, selects := fun _ => some 1,
          counts := fun _ => 0, fs := fun _ => none,
          ids := fun t => if t = "Taxon" then ["T1"] else [] }
        "taxon_ref" (.canonical (some "reference") false none none
          (some "Taxon") .nil) "Assertions"
      ∈ (noneSentinel :: ["T1"]).map Yaml.ystr
    ∧ render_field emptyEnv "other"
        (.canonical (some "reference") false none none (some "Unknown") .nil)
        "Taxon" = .ystr "" :=
  ⟨((C9_reference_field
      { texts := fun _ => none, ints := fun _ => none,
        floats := fun _ => none, selects := fun _ => some 1,
        counts := fun _ => 0, fs := fun _ => none,
        ids := fun t => if t = "Taxon" then ["T1"] else [] }
      "taxon_ref" false none none "Taxon" .nil "Assertions").1
      (by decide)).2,
   (C9_reference_field emptyEnv "other" false none none "Unknown" .nil
      "Taxon").2.1 (by decide)⟩

/-! ## The saved-record invariant (claim C10) -/

theorem cleanEntries_iff (m : List (String × Yaml)) :
    cleanEntries m = true ↔ ∀ p ∈ m, clean p.2 = true := by
  induction m with
  | nil => simp [cleanEntries]
  | cons p r ih => simp [cleanEntries, ih]

theorem cleanList_iff (l : List Yaml) :
    cleanList l = true ↔ ∀ y ∈ l, clean y = true := by
  induction l with
  | nil => simp [cleanList]
  | cons y r ih => simp [cleanList, ih]

theorem isYstr_exists (y : Yaml) (h : isYstr y = true) : ∃ s, y = .ystr s := by
  cases y <;> simp [isYstr] at h ⊢

/-- A kept string value is clean. -/
theorem clean_of_keep_ystr (s : String) (hk : keepVal (.ystr s) = true) :
    clean (.ystr s) = true := hk

/-- A kept member of an all-string option list is clean. -/
theorem clean_of_mem_string_options (opts : List Yaml) (v : Yaml)
    (hall : opts.all isYstr = true) (hmem : v ∈ opts)
    (hk : keepVal v = true) : clean v = true := by
  have hs := isYstr_exists v (by
    have := List.all_eq_true.mp hall v hmem
    exact this)
  rcases hs with ⟨s, rfl⟩
  exact hk

mutual
/-- Any value a field renders that passes the `val not in ("", None)`
filter satisfies the record invariant `clean`, provided every vocabulary
in the spec resolves to string options. -/
theorem clean_render_canon (env : Env) (name : String) (spec : FieldSpec)
    (kp : String) (h : vocabWFs env spec = true)
    (hk : keepVal (render_canon env name spec kp) = true) :
    clean (render_canon env name spec kp) = true := by
  cases spec with
  | shorthand s =>
    revert hk
    simp only [render_canon]
    split_ifs <;> intro hk
    · exact hk
    · rfl
    · rfl
    · simp [load_vocab, vocabOptions, selectbox, keepVal] at hk
    · exact hk
    · simp [keepVal] at hk
  | canonical vt req vsrc voc tgt flds =>
    simp only [vocabWFs, Bool.and_eq_true] at h
    obtain ⟨hvoc, hfl⟩ := h
    revert hk
    simp only [render_canon]
    by_cases h1 : vt.getD "string" = "string"
    · rw [if_pos h1]
      exact fun hk => hk
    · rw [if_neg h1]
      by_cases h2 : vt.getD "string" = "integer"
      · rw [if_pos h2]
        exact fun _ => rfl
      · rw [if_neg h2]
        by_cases h3 : vt.getD "string" = "float"
        · rw [if_pos h3]
          exact fun _ => rfl
        · rw [if_neg h3]
          by_cases h4 : vt.getD "string" = "controlled_vocab"
          · rw [if_pos h4]
            intro hk
            rcases hopts : vocabOptions (load_vocab env.fs
                (if truthyOpt vsrc then vsrc else voc)) with _ | ⟨o, rest⟩
            · rw [hopts] at hk
              simp [selectbox, keepVal] at hk
            · rw [hopts] at hk hvoc
              exact clean_of_mem_string_options (o :: rest) _ hvoc
                (selectbox_mem o rest _) hk
          · rw [if_neg h4]
            by_cases h5 : vt.getD "string" = "reference"
            · rw [if_pos h5]
              rcases tgt with _ | t
              · exact fun hk => hk
              · dsimp only
                by_cases ht : t ∈ DIRS
                · rw [if_pos ht]
                  intro hk
                  have hmem : selectbox ((noneSentinel :: env.ids t).map .ystr)
                      (env.selects (kp ++ "_" ++ name))
                      ∈ (noneSentinel :: env.ids t).map Yaml.ystr := by
                    rw [List.map_cons]
                    exact selectbox_mem _ _ _
                  refine clean_of_mem_string_options _ _ ?_ hmem hk
                  rw [List.all_eq_true]
                  intro y hy
                  rcases List.mem_map.mp hy with ⟨a, _, rfl⟩
                  rfl
                · rw [if_neg ht]
                  exact fun hk => hk
            · rw [if_neg h5]
              by_cases h6 : vt.getD "string" = "object"
              · rw [if_pos h6]
                intro hk
                rcases hobj : (render_children env flds
                    (kp ++ "_" ++ name)).isEmpty with _ | _
                · have hg : clean (Yaml.ymap (render_children env flds
                      (kp ++ "_" ++ name))) = true := by
                    simp only [clean, hobj, Bool.not_false, Bool.true_and]
                    exact (cleanEntries_iff _).mpr
                      (clean_render_children env flds (kp ++ "_" ++ name) hfl)
                  simpa [hobj] using hg
                · simp [keepVal, hobj] at hk
              · rw [if_neg h6]
                by_cases h7 : vt.getD "string" = "list_of_objects"
                · rw [if_pos h7]
                  intro hk
                  rcases hres : (((List.range (env.counts (kp ++ "_" ++ name))).map
                      (fun i => render_children env flds
                        (kp ++ "_" ++ name ++ "_" ++ toString i))).filter
                          (fun e => !e.isEmpty)).isEmpty with _ | _
                  · have hg : clean (Yaml.ylist ((((List.range
                        (env.counts (kp ++ "_" ++ name))).map
                        (fun i => render_children env flds
                          (kp ++ "_" ++ name ++ "_" ++ toString i))).filter
                            (fun e => !e.isEmpty)).map Yaml.ymap)) = true := by
                      simp only [clean]
                      rw [Bool.and_eq_true]
                      constructor
                      · rw [isEmpty_map_eq, hres]
                        rfl
                      · rw [cleanList_iff]
                        intro y hy
                        rcases List.mem_map.mp hy with ⟨e, he, rfl⟩
                        have he' := List.mem_filter.mp he
                        rcases List.mem_map.mp he'.1 with ⟨i, _, rfl⟩
                        simp only [clean]
                        rw [Bool.and_eq_true]
                        refine ⟨by simpa using he'.2, ?_⟩
                        exact (cleanEntries_iff _).mpr
                          (clean_render_children env flds _ hfl)
                    simpa [hres] using hg
                  · simp [keepVal, hres] at hk
                · rw [if_neg h7]
                  intro hk
                  simp [keepVal] at hk

/-- Every value kept in a rendered child list is clean. -/
theorem clean_render_children (env : Env) (fl : FieldList) (kp : String)
    (h : vocabWFl env fl = true) :
    ∀ p ∈ render_children env fl kp, clean p.2 = true := by
  cases fl with
  | nil =>
    intro p hp
    simp [render_children] at hp
  | cons n s r =>
    simp only [vocabWFl, Bool.and_eq_true] at h
    obtain ⟨hs, hr⟩ := h
    intro p hp
    simp only [render_children] at hp
    rcases List.mem_append.mp hp with hp1 | hp2
    · by_cases hkeep : keepVal (render_canon env n s kp) = true
      · rw [if_pos hkeep] at hp1
        rcases List.mem_singleton.mp hp1 with rfl
        exact clean_render_canon env n s kp hs hkeep
      · rw [if_neg hkeep] at hp1
        simp at hp1
    · exact clean_render_children env r kp hr p hp2
end

/-- A successful entity save writes exactly the rendered payload. -/
theorem entity_save_payload (env : Env) (e : String) (fl : FieldList)
    (fid : Yaml) (payload : List (String × Yaml))
    (h : entity_save env e fl = .saved fid payload) :
    payload = render_children env fl e := by
  simp only [entity_save] at h
  split at h
  · exact absurd h (by simp)
  · split at h
    · exact absurd h (by simp)
    · split at h
      · exact absurd h (by simp)
      · split at h
        · injection h with h1 h2
          exact h2.symm
        · exact absurd h (by simp)

/-- C10: every record written by the entity save action satisfies the
invariant at every nesting depth — no stored value is the empty string
or `None`, every mapping is non-empty and every sequence is a non-empty
list of non-empty entries — provided every vocabulary in the schema
resolves to string options, as the data model requires. -/
theorem C10_saved_record_invariant (env : Env) (ename : String)
    (fl : FieldList) (fid : Yaml) (payload : List (String × Yaml))
    (hwf : vocabWFl env fl = true)
    (hsave : entity_save env ename fl = .saved fid payload) :
    ∀ p ∈ payload, clean p.2 = true := by
  rw [entity_save_payload env ename fl fid payload hsave]
  exact clean_render_children env fl ename hwf
/-- Witness for C10 at a concrete input: saving a `Taxon` whose
`taxon_id` field holds `T1` yields a clean stored value. -/
theorem C10_saved_record_invariant_witness : clean (Yaml.ystr "T1") = true :=
  C10_saved_record_invariant
    { texts := fun k => if k = "Taxon_taxon_id" then some "T1" else none,
      ints := fun _ => none, floats := fun _ => none,
      selects := fun _ => none, counts := fun _ => 0,
      fs := fun _ => none, ids := fun _ => [] }
    "Taxon"
    (.cons "taxon_id" (.canonical (some "string") true none none none .nil)
      .nil)
    (.ystr "T1") [("taxon_id", .ystr "T1")] rfl rfl
    ("taxon_id", .ystr "T1") (List.mem_singleton.mpr rfl)

end ProtistTraits
